import Mathlib

/-!
Shallow embedding of the geomstats core geometry layer.

The embedding covers the two central classes of the repository:

* `Connection` (geomstats/geometry/connection.py): geodesic equation,
  ladder parallel transport (pole and Schild schemes) and geodesic
  path generation.
* `RiemannianMetric` (geomstats/geometry/riemannian_metric.py):
  batched inner products, norms, distances, Frechet mean solvers and
  the diameter of a point set.

Modelling conventions.  Scalars of the numeric backend are embedded as
rationals.  A point or tangent vector of the vector point type is a
`List` of rationals; a batch of points is a `List` of such vectors
carrying the leading batch axis of the arrays.  The exponential and
logarithm maps of a connection are abstract capabilities in the source
(`Connection.exp` integrates the geodesic ODE through the
`geomstats.integrator` module and `Connection.log` runs a quasi-Newton
optimizer, both of which are outside the embedded algorithms), so they
appear here as fields of the structure, exactly as the tolerance
comparisons `allclose`/`isclose`, the elementwise `sqrt` and the
Euclidean `norm` of the backend, which the source treats as a black
box.  Fallible code returns `Except String`.
-/

namespace Geomstats

/-- Ladder schemes accepted by `ladder_parallel_transport`
(the `methods` dictionary keys `pole` and `schild`). -/
inductive Scheme
  | pole
  | schild
  deriving DecidableEq

/-- An affine connection: the abstract capabilities used by the
ladder construction and the geodesic path generation of
`connection.py`.  `exp tangent_vec base_point` and
`log point base_point` follow the argument roles of the source;
`allclose` is the backend tolerance comparison `gs.allclose`. -/
structure Connection (V : Type) [AddCommGroup V] [Module ℚ V] where
  exp : V → V → V
  log : V → V → V
  allclose : V → V → Bool

variable {V : Type} [AddCommGroup V] [Module ℚ V]

/-- One pole ladder step (`Connection._pole_ladder_step`): midpoint of
the geodesic from `base_point` to `next_point`, then reflection of
`base_shoot` through that midpoint.  The step returns the end point of
the reflected geodesic (the `end_point` entry of the source; the
`geodesics` entry only records curves for plotting). -/
def Connection.pole_ladder_step (C : Connection V)
    (base_point next_point base_shoot : V) : V :=
  let mid_tangent_vector_to_shoot : V := ((1 : ℚ) / 2) • C.log next_point base_point
  let mid_point := C.exp mid_tangent_vector_to_shoot base_point
  let tangent_vector_to_shoot := -C.log base_shoot mid_point
  C.exp tangent_vector_to_shoot mid_point

/-- One Schild ladder step (`Connection._schild_ladder_step`): the
midpoint is built from the shoot point and the next point, and the
reflection goes through `base_point`. -/
def Connection.schild_ladder_step (C : Connection V)
    (base_point next_point base_shoot : V) : V :=
  let mid_tangent_vector_to_shoot : V := ((1 : ℚ) / 2) • C.log next_point base_shoot
  let mid_point := C.exp mid_tangent_vector_to_shoot base_shoot
  let tangent_vector_to_shoot := -C.log base_point mid_point
  C.exp tangent_vector_to_shoot mid_point

/-- Dispatch of the `methods` dictionary of
`ladder_parallel_transport` on the scheme name. -/
def Connection.ladder_single_step (C : Connection V) (scheme : Scheme) :
    V → V → V → V :=
  match scheme with
  | Scheme.pole => C.pole_ladder_step
  | Scheme.schild => C.schild_ladder_step

/-- One iteration of the rung loop of `ladder_parallel_transport`:
from the state (current point, current shoot point) and the rung index
`i_point`, move to the next point `exp((i_point+1)/n_rungs * direction,
base_point)` of the main geodesic and perform a single ladder step. -/
def Connection.ladder_rung (C : Connection V) (scheme : Scheme)
    (base_point direction : V) (n_rungs : ℕ) (st : V × V) (i_point : ℕ) : V × V :=
  let frac_tan_vector_b := (((i_point : ℚ) + 1) / (n_rungs : ℚ)) • direction
  let next_point := C.exp frac_tan_vector_b base_point
  (next_point, C.ladder_single_step scheme st.1 next_point st.2)

/-- The rung loop of `ladder_parallel_transport` run over
`range(n_rungs)`, starting from the state
(`base_point`, initial shoot point). -/
def Connection.ladder_final (C : Connection V) (scheme : Scheme)
    (base_point direction : V) (n_rungs : ℕ) (base_shoot : V) : V × V :=
  (List.range n_rungs).foldl (C.ladder_rung scheme base_point direction n_rungs)
    (base_point, base_shoot)

/-- Modelled from the spec: `geomstats.errors.check_integer`, called by
`ladder_parallel_transport` on `n_rungs`, is not among the sources; the
spec requires `n_rungs` in ladder transport to be a positive integer,
so the check accepts exactly the positive naturals. -/
def check_integer (n : ℕ) : Bool :=
  decide (1 ≤ n)

/-- Result record of `ladder_parallel_transport` (the `trajectory`
entry only collects the geodesics of each step when
`return_geodesics=True` and is omitted). -/
structure Ladder (V : Type) where
  transported_tangent_vec : V
  end_point : V
  deriving DecidableEq

/-- Embedding of `Connection.ladder_parallel_transport`: validation of `n_rungs`
and `alpha`, scaling of the input vector by `n_rungs ^ (-alpha)`,
the rung loop, and the final logarithm rescaled by `n_rungs ^ alpha`
with a sign flip for the pole scheme at odd `n_rungs`. -/
def Connection.ladder_parallel_transport (C : Connection V)
    (tangent_vec base_point direction : V) (n_rungs : ℕ) (scheme : Scheme)
    (alpha : ℤ) : Except String (Ladder V) :=
  if ¬ check_integer n_rungs then
    Except.error "n_rungs must be a positive integer"
  else if alpha < 1 then
    Except.error "alpha must be greater or equal to one"
  else
    let scale : ℚ := (n_rungs : ℚ) ^ alpha
    let next_tangent_vec := scale⁻¹ • tangent_vec
    let base_shoot := C.exp next_tangent_vec base_point
    let final := C.ladder_final scheme base_point direction n_rungs base_shoot
    let transported_tangent_vec := C.log final.2 final.1
    let transported_tangent_vec :=
      if n_rungs % 2 = 1 ∧ scheme = Scheme.pole then -transported_tangent_vec
      else transported_tangent_vec
    Except.ok ⟨scale • transported_tangent_vec, final.1⟩

/-- Error message of the tangent-vector consistency check of
`Connection.geodesic` (a `RuntimeError` in the source). -/
def tooFarMessage : String :=
  "The shooting tangent vector is too far from the input initial tangent vector."

/-- Embedding of `Connection.geodesic` for a single initial condition: fails when
neither an end point nor an initial tangent vector is given; when an
end point is given, derives the shooting tangent vector through `log`,
checks a supplied initial tangent vector against it with `allclose`,
and closes over the derived vector in the returned path
`t ↦ exp(t • v, initial_point)`. -/
def Connection.geodesic (C : Connection V) (initial_point : V)
    (end_point initial_tangent_vec : Option V) : Except String (ℚ → V) :=
  match end_point, initial_tangent_vec with
  | none, none =>
      Except.error
        "Specify an end point or an initial tangent vector to define the geodesic."
  | some ep, some itv =>
      let shooting_tangent_vec := C.log ep initial_point
      if C.allclose shooting_tangent_vec itv then
        Except.ok (fun t => C.exp (t • shooting_tangent_vec) initial_point)
      else
        Except.error tooFarMessage
  | some ep, none =>
      let shooting_tangent_vec := C.log ep initial_point
      Except.ok (fun t => C.exp (t • shooting_tangent_vec) initial_point)
  | none, some itv =>
      Except.ok (fun t => C.exp (t • itv) initial_point)

/-- Euclidean instantiation of the abstract connection on scalars,
used to evaluate the theorems on concrete inputs: `exp` is translation
and `log` is subtraction, `allclose` is exact comparison. -/
def EucC : Connection ℚ where
  exp := fun v p => p + v
  log := fun q p => q - p
  allclose := fun a b => a == b

/-- The first component of the rung-loop state after the rungs of a
nonempty index list ending in `i` is the point
`exp((i+1)/n_rungs * direction, base_point)` reached by the last rung. -/
lemma ladder_final_last (C : Connection V) (scheme : Scheme)
    (base_point direction : V) (n_rungs : ℕ) (st : V × V) (l : List ℕ) (i : ℕ) :
    ((l ++ [i]).foldl (C.ladder_rung scheme base_point direction n_rungs) st).1 =
      C.exp ((((i : ℚ) + 1) / (n_rungs : ℚ)) • direction) base_point := by
  rw [List.foldl_append]
  rfl

/-- For at least one rung, the loop ends at the point
`exp(n_rungs/n_rungs * direction, base_point)` of the main geodesic. -/
lemma ladder_final_fst (C : Connection V) (scheme : Scheme)
    (base_point direction : V) (n_rungs : ℕ) (hn : 1 ≤ n_rungs) (base_shoot : V) :
    (C.ladder_final scheme base_point direction n_rungs base_shoot).1 =
      C.exp (((n_rungs : ℚ) / (n_rungs : ℚ)) • direction) base_point := by
  obtain ⟨m, rfl⟩ : ∃ m, n_rungs = m + 1 := ⟨n_rungs - 1, by omega⟩
  unfold Connection.ladder_final
  rw [List.range_succ, ladder_final_last]
  push_cast
  ring_nf

/-- With a valid number of rungs, `check_integer` accepts. -/
lemma check_integer_of_pos {n : ℕ} (hn : 1 ≤ n) : check_integer n = true := by
  simpa [check_integer] using hn

/-- C1: for every tangent vector, base point, direction, number of
rungs `n_rungs ≥ 1` and exponent `alpha ≥ 1`, the ladder transport
pre-scales the input vector by `n_rungs ^ (-alpha)` before the rung
iterations (the loop starts from the shoot point of the scaled
vector), and the transported vector is the final logarithm multiplied
by `n_rungs ^ alpha` before being returned, with an additional sign
flip applied before that rescaling when the scheme is pole and
`n_rungs` is odd. -/
theorem spec_C1 (C : Connection V) (tangent_vec base_point direction : V)
    (n_rungs : ℕ) (scheme : Scheme) (alpha : ℤ)
    (hn : 1 ≤ n_rungs) (ha : 1 ≤ alpha) :
    C.ladder_parallel_transport tangent_vec base_point direction n_rungs scheme alpha =
      (let final := C.ladder_final scheme base_point direction n_rungs
          (C.exp ((((n_rungs : ℚ) ^ alpha)⁻¹) • tangent_vec) base_point);
       Except.ok
         ⟨((n_rungs : ℚ) ^ alpha) •
            (if n_rungs % 2 = 1 ∧ scheme = Scheme.pole
             then -(C.log final.2 final.1) else C.log final.2 final.1),
          final.1⟩) := by
  unfold Connection.ladder_parallel_transport
  rw [if_neg (not_not_intro (check_integer_of_pos hn)), if_neg (by omega)]

/-- Witness for C1 on the Euclidean connection: one pole rung with
`alpha = 2` transports the scalar vector `3` along direction `2`. -/
theorem spec_C1_witness :
    Connection.ladder_parallel_transport EucC 3 0 2 1 Scheme.pole 2 =
      Except.ok ⟨3, 2⟩ := by
  have h := spec_C1 EucC 3 0 2 1 Scheme.pole 2 (by decide) (by decide)
  rw [h]
  norm_num [EucC, Connection.ladder_final, Connection.ladder_rung,
    Connection.ladder_single_step, Connection.pole_ladder_step, List.range_succ]

/-- C2: invalid arguments fail immediately with a descriptive error
and no result: a non-positive `n_rungs` or an exponent `alpha < 1`
makes `ladder_parallel_transport` return the corresponding validation
error, and `geodesic` with neither end point nor initial tangent
vector returns its validation error; in each case the result is an
`Except.error`, never a computed value. -/
theorem spec_C2 (C : Connection V) (tangent_vec base_point direction initial_point : V)
    (n_rungs : ℕ) (scheme : Scheme) (alpha : ℤ) :
    (n_rungs < 1 →
      C.ladder_parallel_transport tangent_vec base_point direction n_rungs scheme alpha =
        Except.error "n_rungs must be a positive integer") ∧
    (1 ≤ n_rungs → alpha < 1 →
      C.ladder_parallel_transport tangent_vec base_point direction n_rungs scheme alpha =
        Except.error "alpha must be greater or equal to one") ∧
    (C.geodesic initial_point none none =
      Except.error
        "Specify an end point or an initial tangent vector to define the geodesic.") := by
  refine ⟨fun h => ?_, fun h1 h2 => ?_, rfl⟩
  · unfold Connection.ladder_parallel_transport
    rw [if_pos]
    simp [check_integer]
    omega
  · unfold Connection.ladder_parallel_transport
    rw [if_neg (not_not_intro (check_integer_of_pos h1)), if_pos h2]

/-- Witness for C2 on the Euclidean connection: `n_rungs = 0`,
`alpha = 0` and the doubly missing geodesic data each produce the
documented validation error. -/
theorem spec_C2_witness :
    Connection.ladder_parallel_transport EucC 3 0 2 0 Scheme.pole 2 =
      Except.error "n_rungs must be a positive integer" ∧
    Connection.ladder_parallel_transport EucC 3 0 2 2 Scheme.schild 0 =
      Except.error "alpha must be greater or equal to one" ∧
    Connection.geodesic EucC 5 none none =
      Except.error
        "Specify an end point or an initial tangent vector to define the geodesic." :=
  ⟨(spec_C2 EucC 3 0 2 5 0 Scheme.pole 2).1 (by decide),
   (spec_C2 EucC 3 0 2 5 2 Scheme.schild 0).2.1 (by decide) (by decide),
   (spec_C2 EucC 3 0 2 5 2 Scheme.pole 2).2.2⟩

/-- C10: for every input with `n_rungs ≥ 1` (and a valid `alpha`, so
that a dictionary is returned) and either scheme, the `end_point`
entry of the ladder result is `exp(direction, base_point)`: the rung
loop sets the current point to `exp((i+1)/n_rungs * direction,
base_point)` and after the last rung the fraction is `1`. -/
theorem spec_C10 (C : Connection V) (tangent_vec base_point direction : V)
    (n_rungs : ℕ) (scheme : Scheme) (alpha : ℤ)
    (hn : 1 ≤ n_rungs) (ha : 1 ≤ alpha) :
    Except.map Ladder.end_point
      (C.ladder_parallel_transport tangent_vec base_point direction n_rungs scheme alpha) =
      Except.ok (C.exp direction base_point) := by
  unfold Connection.ladder_parallel_transport
  rw [if_neg (not_not_intro (check_integer_of_pos hn)), if_neg (by omega)]
  have hfrac : ((n_rungs : ℚ) / (n_rungs : ℚ)) • direction = direction := by
    rw [div_self (Nat.cast_ne_zero.mpr (by omega)), one_smul]
  simp [Except.map, ladder_final_fst C scheme base_point direction n_rungs hn, hfrac]

/-- Witness for C10 on the Euclidean connection: two Schild rungs end
at `exp(2, 0) = 2`. -/
theorem spec_C10_witness :
    Except.map Ladder.end_point
      (Connection.ladder_parallel_transport EucC 3 0 2 2 Scheme.schild 1) =
      Except.ok (EucC.exp 2 0) :=
  spec_C10 EucC 3 0 2 2 Scheme.schild 1 (by decide) (by decide)

/-- A point or tangent vector of the vector point type: a backend
array of scalars. -/
abbrev Vec : Type := List ℚ

/-- An inner-product matrix, as a list of rows. -/
abbrev Mat : Type := List (List ℚ)

/-- Scalar multiplication of a backend vector. -/
def smulV (c : ℚ) (v : Vec) : Vec :=
  v.map (fun x => c * x)

/-- Elementwise addition of two backend vectors. -/
def addV (v w : Vec) : Vec :=
  List.zipWith (· + ·) v w

/-- Sum of a list of vectors (empty sum is the empty vector; all
vectors of one batch share their length in the source arrays). -/
def vecSum : List Vec → Vec
  | [] => []
  | [v] => v
  | v :: vs => addV v (vecSum vs)

/-- Dot product of two backend vectors (`einsum` over one index). -/
def dotProd (v w : Vec) : ℚ :=
  (List.zipWith (· * ·) v w).sum

/-- Row-vector times matrix: the contraction `v_j M_jk` of
`einsum` over the row index. -/
def vecMat (v : Vec) (m : Mat) : Vec :=
  vecSum (List.zipWith (fun x row => smulV x row) v m)

/-- The weighted sum `einsum(nk,nj->j)` of a batch of vectors with a
column of weights. -/
def weightedVecSum (w : List ℚ) (vs : List Vec) : Vec :=
  vecSum (List.zipWith smulV w vs)

/-- The metric abstraction of `riemannian_metric.py`.  The
inner-product matrix at a (batched) base point is the abstract
manifold-specific method (already lifted to ndim 3, a batch of
matrices); `log1`/`exp1` are the pointwise abstract Riemannian
logarithm and exponential, vectorized over batches by the backend;
`allclose`, `isclose`, `sqrt` (elementwise `gs.sqrt`) and `norm`
(`gs.linalg.norm`) are backend black boxes. -/
structure RiemannianMetric where
  inner_product_matrix : List Vec → List Mat
  log1 : Vec → Vec → Vec
  exp1 : Vec → Vec → Vec
  allclose : Vec → Vec → Bool
  isclose : ℚ → ℚ → Bool
  sqrt : ℚ → ℚ
  norm : Vec → ℚ

/-- Backend broadcasting of a pointwise binary operation over two
batches carrying the leading batch axis: equal sizes act elementwise,
a singleton batch is broadcast against the other operand. -/
def broadcast2 (f : Vec → Vec → Vec) (xs ys : List Vec) : List Vec :=
  if xs.length = ys.length then List.zipWith f xs ys
  else if ys.length = 1 then xs.map (fun x => f x ys.headI)
  else if xs.length = 1 then ys.map (fun y => f xs.headI y)
  else []

/-- The batched logarithm `self.log(point, base_point)`: the abstract
pointwise map broadcast over the two batches. -/
def logB (M : RiemannianMetric) (point base_point : List Vec) : List Vec :=
  broadcast2 M.log1 point base_point

/-- First contraction stage of `RiemannianMetric.inner_product`:
contract each tangent vector of batch `a` with the inner-product
matrices, resolving a batch-size mismatch by broadcasting whichever
operand has batch size 1 (`a` is tried first, as in the source). -/
def contract_step_a (a : List Vec) (mats : List Mat) : Except String (List Vec) :=
  if a.length = mats.length then Except.ok (List.zipWith vecMat a mats)
  else if a.length = 1 then Except.ok (mats.map (fun m => vecMat a.headI m))
  else if mats.length = 1 then Except.ok (a.map (fun u => vecMat u mats.headI))
  else Except.error "Shape mismatch for einsum."

/-- Second contraction stage of `RiemannianMetric.inner_product`:
contract the auxiliary batch with batch `b`, resolving a mismatch by
broadcasting (the auxiliary operand is tried first, as in the
source). -/
def contract_step_b (aux b : List Vec) : Except String (List ℚ) :=
  if b.length = aux.length then Except.ok (List.zipWith dotProd aux b)
  else if aux.length = 1 then Except.ok (b.map (fun v => dotProd aux.headI v))
  else if b.length = 1 then Except.ok (aux.map (fun u => dotProd u b.headI))
  else Except.error "Shape mismatch for einsum."

/-- The two-stage einsum contraction `u_j g_jk v_k` of
`RiemannianMetric.inner_product` over batches. -/
def inner_product_contract (a : List Vec) (mats : List Mat) (b : List Vec) :
    Except String (List ℚ) :=
  match contract_step_a a mats with
  | Except.error e => Except.error e
  | Except.ok aux => contract_step_b aux b

/-- Embedding of `RiemannianMetric.inner_product`: contraction of two batches of
tangent vectors with the inner-product matrices at the base point. -/
def RiemannianMetric.inner_product (M : RiemannianMetric)
    (tangent_vec_a tangent_vec_b : List Vec) (base_point : List Vec) :
    Except String (List ℚ) :=
  inner_product_contract tangent_vec_a (M.inner_product_matrix base_point) tangent_vec_b

/-- Embedding of `RiemannianMetric.squared_norm`: inner product of a vector with
itself at the base point. -/
def RiemannianMetric.squared_norm (M : RiemannianMetric)
    (vector base_point : List Vec) : Except String (List ℚ) :=
  M.inner_product vector vector base_point

/-- Embedding of `RiemannianMetric.squared_dist`: squared norm at `point_a` of the
logarithm of `point_b` with base point `point_a`. -/
def RiemannianMetric.squared_dist (M : RiemannianMetric)
    (point_a point_b : List Vec) : Except String (List ℚ) :=
  M.squared_norm (logB M point_b point_a) point_a

/-- Embedding of `RiemannianMetric.dist`: elementwise backend square root of the
squared distance. -/
def RiemannianMetric.dist (M : RiemannianMetric)
    (point_a point_b : List Vec) : Except String (List ℚ) :=
  Except.map (fun l => l.map M.sqrt) (M.squared_dist point_a point_b)

/-- Embedding of `RiemannianMetric.geodesic` for a single initial condition,
mirroring `Connection.geodesic` at the metric level: the missing-data
validation error, the derivation of the shooting tangent vector
through `log` when an end point is given, and the bare assertion
`assert gs.allclose(shooting_tangent_vec, initial_tangent_vec)` of the
source, which fails without a message and is embedded as the error
value `AssertionError`. -/
def RiemannianMetric.geodesic (M : RiemannianMetric) (initial_point : Vec)
    (end_point initial_tangent_vec : Option Vec) : Except String (ℚ → Vec) :=
  match end_point, initial_tangent_vec with
  | none, none =>
      Except.error
        "Specify an end point or an initial tangent vector to define the geodesic."
  | some ep, some itv =>
      let shooting_tangent_vec := M.log1 ep initial_point
      if M.allclose shooting_tangent_vec itv then
        Except.ok (fun t => M.exp1 (smulV t shooting_tangent_vec) initial_point)
      else
        Except.error "AssertionError"
  | some ep, none =>
      let shooting_tangent_vec := M.log1 ep initial_point
      Except.ok (fun t => M.exp1 (smulV t shooting_tangent_vec) initial_point)
  | none, some itv =>
      Except.ok (fun t => M.exp1 (smulV t itv) initial_point)

/-- Euclidean instantiation of the metric on one-dimensional vectors,
used to evaluate the theorems on concrete inputs: identity
inner-product matrix at every base point, translation exponential,
subtraction logarithm, exact comparisons, absolute value for the
backend square root and the absolute-sum norm. -/
def EucM : RiemannianMetric where
  inner_product_matrix := fun base => base.map (fun _ => [[1]])
  log1 := fun point base => List.zipWith (fun x y => x - y) point base
  exp1 := fun tangent base => List.zipWith (fun x y => y + x) tangent base
  allclose := fun v w => v == w
  isclose := fun x y => x == y
  sqrt := fun x => |x|
  norm := fun v => (v.map (fun x => |x|)).sum

/-- C3 (amended): when both an end point and an initial tangent
vector are supplied, both geodesic variants first derive the shooting
tangent vector via `log(end_point, initial_point)`; when `allclose`
rejects the supplied vector, the `Connection` variant fails with the
"too far" message while the `RiemannianMetric` variant fails with a
bare assertion failure; when `allclose` accepts, both close the
returned path over the derived vector, not the supplied one. -/
theorem spec_C3 (C : Connection V) (ip ep itv : V)
    (M : RiemannianMetric) (mip mep mitv : Vec) :
    (C.allclose (C.log ep ip) itv = false →
      C.geodesic ip (some ep) (some itv) = Except.error tooFarMessage) ∧
    (C.allclose (C.log ep ip) itv = true →
      C.geodesic ip (some ep) (some itv) =
        Except.ok (fun t => C.exp (t • C.log ep ip) ip)) ∧
    (M.allclose (M.log1 mep mip) mitv = false →
      M.geodesic mip (some mep) (some mitv) = Except.error "AssertionError") ∧
    (M.allclose (M.log1 mep mip) mitv = true →
      M.geodesic mip (some mep) (some mitv) =
        Except.ok (fun t => M.exp1 (smulV t (M.log1 mep mip)) mip)) := by
  refine ⟨fun h => ?_, fun h => ?_, fun h => ?_, fun h => ?_⟩ <;>
    simp [Connection.geodesic, RiemannianMetric.geodesic, h]

/-- Witness for C3 on the Euclidean instantiations: a disagreeing
supplied vector makes the connection variant fail with the "too far"
message and the metric variant fail with the assertion error, while
an agreeing one returns the path over the derived vector. -/
theorem spec_C3_witness :
    Connection.geodesic EucC 0 (some 2) (some 5) = Except.error tooFarMessage ∧
    RiemannianMetric.geodesic EucM [0] (some [2]) (some [5]) =
      Except.error "AssertionError" ∧
    Connection.geodesic EucC 0 (some 2) (some 2) =
      Except.ok (fun t => EucC.exp (t • EucC.log 2 0) 0) :=
  ⟨(spec_C3 EucC 0 2 5 EucM [0] [2] [5]).1 (by norm_num [EucC]),
   (spec_C3 EucC 0 2 5 EucM [0] [2] [5]).2.2.1 (by norm_num [EucM]),
   (spec_C3 EucC 0 2 2 EucM [0] [2] [5]).2.1 (by norm_num [EucC])⟩

/-- Counterexample for C3 as stated: the claim attributes the
"too far" inconsistency signal to the `RiemannianMetric` variant as
well, but that variant fails through a bare `assert` carrying no
message, so its failure is not the too-far signal. -/
theorem spec_C3_counterexample :
    RiemannianMetric.geodesic EucM [0] (some [2]) (some [5]) =
      Except.error "AssertionError" ∧
    "AssertionError" ≠ tooFarMessage := by
  constructor
  · simp [RiemannianMetric.geodesic, EucM]
  · decide

/-- The auxiliary batch size produced by the first contraction stage
when it succeeds. -/
abbrev broadcast_aux_size (n_a n_mats : ℕ) : ℕ :=
  if n_a = n_mats then n_a else if n_a = 1 then n_mats else n_a

/-- The staged success condition of the inner-product contraction:
each of the two einsum stages must see equal batch sizes or a
singleton operand. -/
abbrev broadcast_ok (n_a n_mats n_b : ℕ) : Prop :=
  (n_a = n_mats ∨ n_a = 1 ∨ n_mats = 1) ∧
  (n_b = broadcast_aux_size n_a n_mats ∨ broadcast_aux_size n_a n_mats = 1 ∨ n_b = 1)

/-- The second stage succeeds exactly on resolvable batch sizes. -/
lemma contract_step_b_ok_iff (aux b : List Vec) :
    (∃ r, contract_step_b aux b = Except.ok r) ↔
      (b.length = aux.length ∨ aux.length = 1 ∨ b.length = 1) := by
  unfold contract_step_b
  split_ifs with h1 h2 h3 <;> simp_all

/-- When the first stage succeeds the contraction continues with the
second stage. -/
lemma inner_product_contract_of_ok (a : List Vec) (mats : List Mat) (b : List Vec)
    (aux : List Vec) (h : contract_step_a a mats = Except.ok aux) :
    inner_product_contract a mats b = contract_step_b aux b := by
  unfold inner_product_contract
  rw [h]

/-- When the first stage fails the contraction propagates its
error. -/
lemma inner_product_contract_of_error (a : List Vec) (mats : List Mat) (b : List Vec)
    (e : String) (h : contract_step_a a mats = Except.error e) :
    inner_product_contract a mats b = Except.error e := by
  unfold inner_product_contract
  rw [h]

/-- The full contraction succeeds exactly on the staged broadcast
condition. -/
lemma contract_ok_iff (a : List Vec) (mats : List Mat) (b : List Vec) :
    (∃ r, inner_product_contract a mats b = Except.ok r) ↔
      broadcast_ok a.length mats.length b.length := by
  unfold broadcast_ok broadcast_aux_size
  by_cases h1 : a.length = mats.length
  · rw [inner_product_contract_of_ok a mats b _
      (by unfold contract_step_a; rw [if_pos h1])]
    rw [contract_step_b_ok_iff]
    simp [List.length_zipWith, h1, Nat.min_self]
  · by_cases h2 : a.length = 1
    · rw [inner_product_contract_of_ok a mats b _
        (by unfold contract_step_a; rw [if_neg h1, if_pos h2])]
      rw [contract_step_b_ok_iff]
      rw [h2] at h1
      simp [h1, h2]
    · by_cases h3 : mats.length = 1
      · rw [inner_product_contract_of_ok a mats b _
          (by unfold contract_step_a; rw [if_neg h1, if_neg h2, if_pos h3])]
        rw [contract_step_b_ok_iff]
        simp [h1, h2, h3]
      · rw [inner_product_contract_of_error a mats b _
          (by unfold contract_step_a; rw [if_neg h1, if_neg h2, if_neg h3])]
        simp [h1, h2, h3]

/-- C4 (amended): the batched inner product contracts `u`, the
inner-product matrix batch and `v` in two einsum stages; it succeeds
exactly when `u` and the matrix batch agree in size or one of them is
a singleton, and `v` then agrees with the resulting auxiliary batch
size or one of the two is a singleton; any other disagreement is the
shape-mismatch error.  (The claim's condition, that any single
operand of batch size 1 rescues every disagreement, is refuted by the
counterexample.) -/
theorem spec_C4 (M : RiemannianMetric) (a b base : List Vec) :
    (∃ r, M.inner_product a b base = Except.ok r) ↔
      broadcast_ok a.length (M.inner_product_matrix base).length b.length :=
  contract_ok_iff a (M.inner_product_matrix base) b

/-- Witness for C4: agreeing batch sizes for the first stage and a
singleton `v` for the second succeed on the Euclidean metric. -/
theorem spec_C4_witness :
    ∃ r, RiemannianMetric.inner_product EucM [[1], [2]] [[3]] [[0], [0]] =
      Except.ok r :=
  (spec_C4 EucM [[1], [2]] [[3]] [[0], [0]]).mpr (by simp [EucM]; decide)

/-- Counterexample for C4 as stated: with batch sizes 1 (for `u`),
3 (for the matrices) and 2 (for `v`) the three sizes pairwise
disagree and one of the operands has batch size 1, yet the call
raises the shape-mismatch error instead of succeeding. -/
theorem spec_C4_counterexample :
    RiemannianMetric.inner_product EucM [[1]] [[1], [1]] [[0], [0], [0]] =
      Except.error "Shape mismatch for einsum." ∧
    (EucM.inner_product_matrix [[0], [0], [0]]).length = 3 ∧
    ((1 : ℕ) ≠ 3 ∧ (3 : ℕ) ≠ 2 ∧ (1 : ℕ) ≠ 2) ∧
    ((1 : ℕ) = 1 ∨ (3 : ℕ) = 1 ∨ (2 : ℕ) = 1) := by
  refine ⟨?_, by simp [EucM], by decide, by decide⟩
  simp [RiemannianMetric.inner_product, inner_product_contract,
    contract_step_a, contract_step_b, EucM]

/-- C6: the squared geodesic distance between two point batches is
the squared norm at `point_a` of the logarithm of `point_b` based at
`point_a` (spelled out through `inner_product`), and the distance is
the elementwise backend square root of the squared distance. -/
theorem spec_C6 (M : RiemannianMetric) (point_a point_b : List Vec) :
    M.squared_dist point_a point_b =
      M.inner_product (logB M point_b point_a) (logB M point_b point_a) point_a ∧
    M.dist point_a point_b =
      Except.map (fun l => l.map M.sqrt) (M.squared_dist point_a point_b) :=
  ⟨rfl, rfl⟩

/-- Embedding of `Connection.geodesic_equation` on coordinates indexed by `Fin d`:
from the state (position, velocity), contract the Christoffel symbols
at the position (`einsum(kij,i->kj)` then negated `einsum(kj,j->k)`)
and stack the pair (velocity, acceleration). -/
def geodesic_equation (d : ℕ)
    (christoffels : (Fin d → ℚ) → Fin d → Fin d → Fin d → ℚ)
    (state : (Fin d → ℚ) × (Fin d → ℚ)) : (Fin d → ℚ) × (Fin d → ℚ) :=
  let position := state.1
  let velocity := state.2
  let gamma := christoffels position
  let equation := fun k j => ∑ i, gamma k i j * velocity i
  let equation2 := fun k => -∑ j, equation k j * velocity j
  (velocity, equation2)

/-- C5: the geodesic equation returns the stacked pair whose first
component is the velocity and whose acceleration component `k` is
minus the contraction of the Christoffel symbols (contravariant index
first) with the velocity over both lower indices. -/
theorem spec_C5 (d : ℕ)
    (christoffels : (Fin d → ℚ) → Fin d → Fin d → Fin d → ℚ)
    (position velocity : Fin d → ℚ) :
    (geodesic_equation d christoffels (position, velocity)).1 = velocity ∧
    ∀ k, (geodesic_equation d christoffels (position, velocity)).2 k =
      -∑ i, ∑ j, christoffels position k i j * velocity i * velocity j := by
  refine ⟨rfl, fun k => ?_⟩
  show -∑ j, (∑ i, christoffels position k i j * velocity i) * velocity j = _
  rw [neg_inj]
  simp only [Finset.sum_mul]
  exact Finset.sum_comm

/-- Loop state of the fixed-point iteration of
`RiemannianMetric.mean`: the iteration counter, the current mean (a
batch of one), the current variance and the squared displacement of
the last step. -/
structure MeanState where
  iteration : ℕ
  mean : List Vec
  variance : ℚ
  sq_dist : ℚ

/-- Embedding of `RiemannianMetric.variance` with an explicit base point: the
weighted average of squared distances from the base point. -/
def RiemannianMetric.variance (M : RiemannianMetric) (points : List Vec)
    (weights : List ℚ) (base_point : List Vec) : Except String ℚ :=
  match M.squared_dist base_point points with
  | Except.error e => Except.error e
  | Except.ok sq_dists =>
      Except.ok ((List.zipWith (· * ·) weights sq_dists).sum / weights.sum)

/-- The while-loop condition of `RiemannianMetric.mean`: continue
while the variance is not close to zero and the squared displacement
exceeds `epsilon * variance`, and always run the first iteration. -/
def mean_while_cond (M : RiemannianMetric) (epsilon : ℚ) (st : MeanState) : Bool :=
  (!(M.isclose st.variance 0 || decide (st.sq_dist ≤ epsilon * st.variance))) ||
    st.iteration == 0

/-- The while-loop body of `RiemannianMetric.mean`: update the mean
to `exp(weighted-average(log(points, mean)), mean)` and recompute the
squared displacement and the variance at the new mean. -/
def mean_while_body (M : RiemannianMetric) (points : List Vec)
    (weights : List ℚ) (sum_weights : ℚ) (st : MeanState) :
    Except String MeanState :=
  let logs := logB M points st.mean
  let tangent_mean := smulV sum_weights⁻¹ (weightedVecSum weights logs)
  let mean_next := [M.exp1 tangent_mean st.mean.headI]
  match M.squared_dist mean_next st.mean with
  | Except.error e => Except.error e
  | Except.ok sq =>
      match M.variance points weights mean_next with
      | Except.error e => Except.error e
      | Except.ok var => Except.ok ⟨st.iteration + 1, mean_next, var, sq.headI⟩

/-- The bounded while loop of `RiemannianMetric.mean`
(`gs.while_loop` with `maximum_iterations = n_max_iterations`). -/
def mean_while_loop (M : RiemannianMetric) (points : List Vec)
    (weights : List ℚ) (sum_weights epsilon : ℚ) :
    ℕ → MeanState → Except String MeanState
  | 0, st => Except.ok st
  | fuel + 1, st =>
      if mean_while_cond M epsilon st then
        match mean_while_body M points weights sum_weights st with
        | Except.error e => Except.error e
        | Except.ok st2 =>
            mean_while_loop M points weights sum_weights epsilon fuel st2
      else Except.ok st

/-- Embedding of `RiemannianMetric.mean`: the Frechet mean by fixed-point
iteration; the initial mean is the first point and a batch of a
single point is returned immediately, before the loop. -/
def RiemannianMetric.mean (M : RiemannianMetric) (points : List Vec)
    (weights : Option (List ℚ)) (n_max_iterations : ℕ) (epsilon : ℚ) :
    Except String (List Vec) :=
  let n_points := points.length
  let w := weights.getD (List.replicate n_points 1)
  let sum_weights := w.sum
  let mean0 := [points.headI]
  if n_points = 1 then Except.ok mean0
  else
    match mean_while_loop M points w sum_weights epsilon n_max_iterations
        ⟨0, mean0, 0, 0⟩ with
    | Except.error e => Except.error e
    | Except.ok final => Except.ok final.mean

/-- Loop state of `RiemannianMetric.adaptive_gradientdescent_mean`:
the adaptive step size `tau`, the iteration counter, the current mean
(a single point), the current tangent mean and its norm. -/
structure AState where
  tau : ℚ
  iter : ℕ
  current_mean : Vec
  current_tangent_mean : Vec
  norm_current_tangent_mean : ℚ

/-- The tangent-space weighted average of the logarithms of the
points at a candidate mean, divided by the total weight. -/
def next_tangent_mean (M : RiemannianMetric) (points : List Vec)
    (weights : List ℚ) (sum_weights : ℚ) (mean : Vec) : Vec :=
  smulV sum_weights⁻¹
    (weightedVecSum weights (points.map (fun p => M.log1 p mean)))

/-- One iteration of the descent loop of
`adaptive_gradientdescent_mean`: shoot with step size `tau`; on an
improving step (strictly smaller tangent-mean norm) adopt the new
mean and set `tau` to `max(1.0, 1.0511111 * tau)`, otherwise keep the
mean and shrink `tau` by `0.8`. -/
def adaptive_step (M : RiemannianMetric) (points : List Vec)
    (weights : List ℚ) (sum_weights : ℚ) (st : AState) : AState :=
  let shooting_vector := smulV st.tau st.current_tangent_mean
  let next_mean := M.exp1 shooting_vector st.current_mean
  let ntm := next_tangent_mean M points weights sum_weights next_mean
  let nn := M.norm ntm
  if nn < st.norm_current_tangent_mean then
    ⟨max 1 ((10511111 / 10000000 : ℚ) * st.tau), st.iter + 1, next_mean, ntm, nn⟩
  else
    ⟨(8 / 10 : ℚ) * st.tau, st.iter + 1, st.current_mean,
      st.current_tangent_mean, st.norm_current_tangent_mean⟩

/-- The descent loop of `adaptive_gradientdescent_mean`: while the
tangent-mean norm exceeds `epsilon` and fewer than
`n_max_iterations` iterations have run. -/
def adaptive_loop (M : RiemannianMetric) (points : List Vec) (weights : List ℚ)
    (sum_weights epsilon : ℚ) (n_max_iterations : ℕ) : ℕ → AState → AState
  | 0, st => st
  | fuel + 1, st =>
      if epsilon < st.norm_current_tangent_mean ∧ st.iter < n_max_iterations then
        adaptive_loop M points weights sum_weights epsilon n_max_iterations fuel
          (adaptive_step M points weights sum_weights st)
      else st

/-- Embedding of `RiemannianMetric.adaptive_gradientdescent_mean`: the adaptive
gradient-descent Frechet mean solver; the starting mean is the first
point (or the first init point), a single input point is returned
immediately before the loop, and the final mean is lifted to a batch
of one. -/
def RiemannianMetric.adaptive_gradientdescent_mean (M : RiemannianMetric)
    (points : List Vec) (weights : Option (List ℚ)) (n_max_iterations : ℕ)
    (epsilon : ℚ) (init_points : List Vec) : List Vec :=
  let n_points := points.length
  let w := weights.getD (List.replicate n_points 1)
  let sum_weights := w.sum
  let n_init := init_points.length
  let current_mean := if n_init = 0 then points.headI else init_points.headI
  if n_points = 1 then [current_mean]
  else
    let current_tangent_mean := next_tangent_mean M points w sum_weights current_mean
    let st0 : AState :=
      ⟨1, 0, current_mean, current_tangent_mean, M.norm current_tangent_mean⟩
    [(adaptive_loop M points w sum_weights epsilon n_max_iterations
        n_max_iterations st0).current_mean]

/-- C7: for an input batch of exactly one point and any weights, the
Frechet mean returns that point as a batch of one immediately, and the
adaptive solver returns it likewise; both equalities hold for every
metric `M`, so neither result involves any call to the metric maps
`log`, `exp` or `squared_dist` and no loop iteration runs. -/
theorem spec_C7 (M : RiemannianMetric) (p : Vec) (weights : Option (List ℚ))
    (n_max_iterations : ℕ) (epsilon : ℚ) :
    M.mean [p] weights n_max_iterations epsilon = Except.ok [p] ∧
    M.adaptive_gradientdescent_mean [p] weights n_max_iterations epsilon [] = [p] := by
  constructor
  · simp [RiemannianMetric.mean]
  · simp [RiemannianMetric.adaptive_gradientdescent_mean]

/-- C8 (amended): in each iteration of the adaptive descent loop, an
improving step (the next tangent mean has strictly smaller norm)
updates the mean and sets `tau` to `max(1.0, 1.0511111 * tau)`, while
a non-improving step keeps the mean and multiplies `tau` by `0.8`;
the loop stops exactly when the tangent-mean norm is at most
`epsilon` or the iteration count has reached `n_max_iterations`, and
otherwise performs one step and continues.  (The claim's plain
multiplication of `tau` by `1.0511` is refuted by the
counterexample.) -/
theorem spec_C8 (M : RiemannianMetric) (points : List Vec) (weights : List ℚ)
    (sum_weights epsilon : ℚ) (n_max_iterations : ℕ) (st : AState) :
    (M.norm (next_tangent_mean M points weights sum_weights
        (M.exp1 (smulV st.tau st.current_tangent_mean) st.current_mean)) <
        st.norm_current_tangent_mean →
      adaptive_step M points weights sum_weights st =
        ⟨max 1 ((10511111 / 10000000 : ℚ) * st.tau), st.iter + 1,
         M.exp1 (smulV st.tau st.current_tangent_mean) st.current_mean,
         next_tangent_mean M points weights sum_weights
           (M.exp1 (smulV st.tau st.current_tangent_mean) st.current_mean),
         M.norm (next_tangent_mean M points weights sum_weights
           (M.exp1 (smulV st.tau st.current_tangent_mean) st.current_mean))⟩) ∧
    (¬ M.norm (next_tangent_mean M points weights sum_weights
        (M.exp1 (smulV st.tau st.current_tangent_mean) st.current_mean)) <
        st.norm_current_tangent_mean →
      adaptive_step M points weights sum_weights st =
        ⟨(8 / 10 : ℚ) * st.tau, st.iter + 1, st.current_mean,
         st.current_tangent_mean, st.norm_current_tangent_mean⟩) ∧
    (∀ fuel, ¬ (epsilon < st.norm_current_tangent_mean ∧
        st.iter < n_max_iterations) →
      adaptive_loop M points weights sum_weights epsilon n_max_iterations fuel st =
        st) ∧
    (∀ fuel, epsilon < st.norm_current_tangent_mean →
        st.iter < n_max_iterations →
      adaptive_loop M points weights sum_weights epsilon n_max_iterations
          (fuel + 1) st =
        adaptive_loop M points weights sum_weights epsilon n_max_iterations fuel
          (adaptive_step M points weights sum_weights st)) := by
  refine ⟨fun h => ?_, fun h => ?_, fun fuel h => ?_, fun fuel h1 h2 => ?_⟩
  · unfold adaptive_step
    rw [if_pos h]
  · unfold adaptive_step
    rw [if_neg h]
  · cases fuel with
    | zero => rfl
    | succ fuel => exact if_neg h
  · exact if_pos ⟨h1, h2⟩

/-- Witness for C8 on the Euclidean metric: an improving step from
`tau = 1` yields `tau = 1.0511111` with the updated mean, and the
loop leaves a state with tangent-mean norm at most `epsilon`
unchanged. -/
theorem spec_C8_witness :
    adaptive_step EucM [[0], [2]] [1, 1] 2 ⟨1, 0, [0], [1], 1⟩ =
      ⟨10511111 / 10000000, 1, [1], [0], 0⟩ ∧
    adaptive_loop EucM [[0], [2]] [1, 1] 2 1 32 5 ⟨1, 3, [7], [0], 1 / 2⟩ =
      ⟨1, 3, [7], [0], 1 / 2⟩ := by
  constructor
  · have h := (spec_C8 EucM [[0], [2]] [1, 1] 2 1 32 ⟨1, 0, [0], [1], 1⟩).1
      (by norm_num [EucM, next_tangent_mean, weightedVecSum, vecSum, addV, smulV])
    rw [h]
    norm_num [EucM, next_tangent_mean, weightedVecSum, vecSum, addV, smulV]
  · exact (spec_C8 EucM [[0], [2]] [1, 1] 2 1 32 ⟨1, 3, [7], [0], 1 / 2⟩).2.2.1 5
      (by norm_num)

/-- Counterexample for C8 as stated: on an improving step from
`tau = 1` the source sets `tau` to `max(1.0, 1.0511111 * tau) =
1.0511111`, which is not the claimed multiplication by `1.0511`. -/
theorem spec_C8_counterexample :
    EucM.norm (next_tangent_mean EucM [[0], [2]] [1, 1] 2
        (EucM.exp1 (smulV 1 [1]) [0])) < 1 ∧
    (adaptive_step EucM [[0], [2]] [1, 1] 2 ⟨1, 0, [0], [1], 1⟩).tau =
      10511111 / 10000000 ∧
    (10511111 / 10000000 : ℚ) ≠ (10511 / 10000 : ℚ) * 1 := by
  refine ⟨?_, ?_, by norm_num⟩
  · norm_num [EucM, next_tangent_mean, weightedVecSum, vecSum, addV, smulV]
  · rw [show adaptive_step EucM [[0], [2]] [1, 1] 2 ⟨1, 0, [0], [1], 1⟩ =
        ⟨max 1 ((10511111 / 10000000 : ℚ) * 1), 0 + 1, _, _, _⟩ from by
      unfold adaptive_step
      rw [if_pos (by norm_num [EucM, next_tangent_mean, weightedVecSum,
        vecSum, addV, smulV])]]
    norm_num

/-- Backend `gs.amax`: maximum entry of a (nonempty) array; the empty case is
never reached by `diameter`. -/
def amax : List ℚ → ℚ
  | [] => 0
  | x :: xs => xs.foldr max x

/-- The loop of `RiemannianMetric.diameter`: for each point, the
batched distance to all later points, its maximum, and the running
maximum starting from `0.0`. -/
def diameter_go (M : RiemannianMetric) : ℚ → List Vec → Except String ℚ
  | acc, [] => Except.ok acc
  | acc, [_] => Except.ok acc
  | acc, p :: q :: rest =>
      match M.dist [p] (q :: rest) with
      | Except.error e => Except.error e
      | Except.ok ds => diameter_go M (max acc (amax ds)) (q :: rest)

/-- Embedding of `RiemannianMetric.diameter`: distance between the two points of a
batch farthest from each other, comparing each point only against the
later points. -/
def RiemannianMetric.diameter (M : RiemannianMetric) (points : List Vec) :
    Except String ℚ :=
  diameter_go M 0 points

/-- All pairs `(points[i], points[j])` with `i < j`, in loop order. -/
def allPairs : List Vec → List (Vec × Vec)
  | [] => []
  | p :: rest => rest.map (fun q => (p, q)) ++ allPairs rest

/-- The distance between two single points through the embedded
pipeline: backend square root of the contraction of
`log(q, p)` with the inner-product matrix at `p`. -/
def dist1 (M : RiemannianMetric) (p q : Vec) : ℚ :=
  M.sqrt (dotProd (vecMat (M.log1 q p) ((M.inner_product_matrix [p]).headI))
    (M.log1 q p))

/-- Broadcasting a batch against a singleton base applies the
pointwise map to every batch element. -/
lemma logB_single (M : RiemannianMetric) (l : List Vec) (p : Vec) :
    logB M l [p] = l.map (fun q => M.log1 q p) := by
  rcases l with _ | ⟨a, _ | ⟨b, t⟩⟩ <;> simp [logB, broadcast2]

/-- Zipping a mapped list with the original list is a map of the
combined function. -/
lemma zipWith_map_self {α β γ : Type} (f : α → β) (g : β → α → γ) :
    ∀ l : List α, List.zipWith g (l.map f) l = l.map (fun a => g (f a) a)
  | [] => rfl
  | a :: t => by simp [zipWith_map_self f g t]

/-- Contracting a batch with a single matrix on both sides computes
the quadratic form of every batch element. -/
lemma contract_self (l : List Vec) (mat : Mat) :
    inner_product_contract l [mat] l =
      Except.ok (l.map (fun w => dotProd (vecMat w mat) w)) := by
  rcases l with _ | ⟨x, _ | ⟨y, t⟩⟩
  · rfl
  · rfl
  · have ha : contract_step_a (x :: y :: t) [mat] =
        Except.ok ((x :: y :: t).map (fun u => vecMat u mat)) := by
      unfold contract_step_a
      rw [if_neg (by simp), if_neg (by simp)]
      simp
    rw [inner_product_contract_of_ok _ _ _ _ ha]
    unfold contract_step_b
    rw [if_pos (by simp), zipWith_map_self]

/-- The batched distance from a single point to a batch is the map of
the single-pair distance. -/
lemma dist_single (M : RiemannianMetric) (p : Vec) (l : List Vec) (mat : Mat)
    (h : M.inner_product_matrix [p] = [mat]) :
    M.dist [p] l = Except.ok (l.map (fun q => dist1 M p q)) := by
  unfold RiemannianMetric.dist RiemannianMetric.squared_dist
    RiemannianMetric.squared_norm RiemannianMetric.inner_product
  rw [h, logB_single, contract_self]
  simp [Except.map, List.map_map, dist1, h, Function.comp]

/-- Folding `max` over a seed containing `max a b` pulls `a` out. -/
lemma foldr_max_pull (l : List ℚ) (a b : ℚ) :
    l.foldr max (max a b) = max a (l.foldr max b) := by
  induction l with
  | nil => rfl
  | cons x xs ih => rw [List.foldr_cons, List.foldr_cons, ih, max_left_comm]

/-- The seed of a `max` fold can be exchanged with a joined value. -/
lemma foldr_max_seed_swap (l : List ℚ) (a b : ℚ) :
    max a (l.foldr max b) = max b (l.foldr max a) := by
  induction l with
  | nil => exact max_comm a b
  | cons x xs ih =>
      rw [List.foldr_cons, List.foldr_cons, max_left_comm a x, ih, max_left_comm x b]

/-- Two `max` folds over the same seed commute. -/
lemma foldr_max_foldr_comm (P Q : List ℚ) (a : ℚ) :
    P.foldr max (Q.foldr max a) = Q.foldr max (P.foldr max a) := by
  induction P with
  | nil => rfl
  | cons x xs ih => rw [List.foldr_cons, ih, ← foldr_max_pull, List.foldr_cons]

/-- A `max` fold over a nonempty list is the join of the seed with
the maximum of the list. -/
lemma foldr_max_amax (d : ℚ) (ds : List ℚ) (acc : ℚ) :
    (d :: ds).foldr max acc = max acc (amax (d :: ds)) := by
  rw [List.foldr_cons]
  exact foldr_max_seed_swap ds d acc

/-- The diameter loop accumulates the maximum of the accumulator and
all pairwise single-point distances of the remaining batch. -/
lemma diameter_go_spec (M : RiemannianMetric)
    (hm : ∀ p, ∃ mat, M.inner_product_matrix [p] = [mat]) :
    ∀ (pts : List Vec) (acc : ℚ),
      diameter_go M acc pts =
        Except.ok (((allPairs pts).map (fun pr => dist1 M pr.1 pr.2)).foldr max acc) := by
  intro pts
  induction pts with
  | nil => intro acc; rfl
  | cons p tl ih =>
      intro acc
      rcases tl with _ | ⟨q, rest⟩
      · rfl
      · obtain ⟨mat, hmat⟩ := hm p
        have h1 : M.dist [p] (q :: rest) =
            Except.ok ((q :: rest).map (fun r => dist1 M p r)) :=
          dist_single M p (q :: rest) mat hmat
        have h2 : diameter_go M acc (p :: q :: rest) =
            diameter_go M (max acc (amax ((q :: rest).map (fun r => dist1 M p r))))
              (q :: rest) := by
          simp only [diameter_go, h1]
        rw [h2, ih]
        congr 1
        rw [show allPairs (p :: q :: rest) =
            (q :: rest).map (fun r => (p, r)) ++ allPairs (q :: rest) from rfl]
        rw [List.map_append, List.foldr_append, List.map_map]
        rw [show ((q :: rest).map ((fun pr : Vec × Vec => dist1 M pr.1 pr.2) ∘
            fun r => (p, r))) = (q :: rest).map (fun r => dist1 M p r) from rfl]
        rw [show (q :: rest).map (fun r => dist1 M p r) =
            dist1 M p q :: rest.map (fun r => dist1 M p r) from rfl]
        rw [← foldr_max_amax, foldr_max_foldr_comm]

/-- Every element of a list is at most its `max` fold. -/
lemma le_foldr_max (l : List ℚ) (a : ℚ) : ∀ x ∈ l, x ≤ l.foldr max a := by
  induction l with
  | nil => simp
  | cons y ys ih =>
      intro x hx
      rcases List.mem_cons.mp hx with rfl | hx
      · exact le_max_left _ _
      · exact (ih x hx).trans (le_max_right _ _)

/-- A `max` fold with seed `0` over a nonempty list of nonnegative
entries is one of the entries. -/
lemma foldr_max_zero_mem :
    ∀ l : List ℚ, l ≠ [] → (∀ x ∈ l, 0 ≤ x) → l.foldr max 0 ∈ l := by
  intro l
  induction l with
  | nil => intro hne; cases hne rfl
  | cons y ys ih =>
      intro _ h0
      rcases ys with _ | ⟨z, zs⟩
      · rw [List.foldr_cons, List.foldr_nil, max_eq_left (h0 y (by simp))]
        exact List.mem_singleton_self y
      · rcases max_choice y ((z :: zs).foldr max 0) with h | h
        · rw [List.foldr_cons, h]
          exact List.mem_cons_self _ _
        · rw [List.foldr_cons, h]
          exact List.mem_cons_of_mem _
            (ih (by simp) (fun x hx => h0 x (List.mem_cons_of_mem _ hx)))

/-- C9: the diameter of a batch is the maximum over all pairs
`i < j` of the pairwise distances (each computed once, comparing each
point only against the later points of the batch): it equals the
`max` fold with seed `0.0` of the pairwise distances in loop order,
it is `0.0` for fewer than two points, and for at least two points it
is one of the pairwise distances and an upper bound of all of them. -/
theorem spec_C9 (M : RiemannianMetric) (points : List Vec)
    (hm : ∀ p, ∃ mat, M.inner_product_matrix [p] = [mat])
    (hs : ∀ q, 0 ≤ M.sqrt q) :
    M.diameter points =
      Except.ok (((allPairs points).map (fun pr => dist1 M pr.1 pr.2)).foldr max 0) ∧
    (points.length < 2 → M.diameter points = Except.ok 0) ∧
    (2 ≤ points.length →
      ((allPairs points).map (fun pr => dist1 M pr.1 pr.2)).foldr max 0 ∈
        (allPairs points).map (fun pr => dist1 M pr.1 pr.2) ∧
      ∀ x ∈ (allPairs points).map (fun pr => dist1 M pr.1 pr.2),
        x ≤ ((allPairs points).map (fun pr => dist1 M pr.1 pr.2)).foldr max 0) := by
  have hnn : ∀ x ∈ (allPairs points).map (fun pr => dist1 M pr.1 pr.2), 0 ≤ x := by
    intro x hx
    obtain ⟨pr, -, rfl⟩ := List.mem_map.mp hx
    exact hs _
  refine ⟨diameter_go_spec M hm points 0, fun h => ?_, fun h => ⟨?_, le_foldr_max _ _⟩⟩
  · rcases points with _ | ⟨x, _ | ⟨y, t⟩⟩
    · rfl
    · rfl
    · simp at h
      omega
  · refine foldr_max_zero_mem _ ?_ hnn
    rcases points with _ | ⟨x, _ | ⟨y, t⟩⟩
    · simp at h
    · simp at h
    · simp [allPairs]

/-- Witness for C9 on the Euclidean metric: the three-point batch
`0, 3, 1` on the line has pairwise squared distances `9, 1, 4`, and
with the absolute-value backend square root the diameter is `9`. -/
theorem spec_C9_witness :
    RiemannianMetric.diameter EucM [[0], [3], [1]] = Except.ok 9 := by
  have h := (spec_C9 EucM [[0], [3], [1]]
      (fun p => ⟨[[1]], rfl⟩) (fun q => abs_nonneg q)).1
  rw [h]
  norm_num [allPairs, dist1, EucM, dotProd, vecMat, vecSum, smulV, amax]

end Geomstats
